import Mathlib

/-!
Shallow embedding of `streamlit_app.py` (CalmInvestor): the session usage
guard (`check_usage_limit`, `check_rate_limit`), the advice pipeline
(`get_ai_advice`), and the market snapshot fetch (`get_stock_data`).
External services are modelled as explicit oracles: the market-data
library as a `StockOracle` (history and metadata, each either a value or
a raised exception) and the completion service as a function from the
prompt body to either a response message or a raised exception.
Wall-clock reads (`time.time()`) are an explicit `current_time : ℚ`
parameter; `st.session_state` is an explicit `SessionState` record.
-/

set_option autoImplicit false

namespace CalmInvestor

/-- `FREE_QUESTIONS_PER_SESSION = 3` (line 32 of the source). -/
def FREE_QUESTIONS_PER_SESSION : ℕ := 3

/-- `COOLDOWN_SECONDS = 10` (line 33 of the source). -/
def COOLDOWN_SECONDS : ℚ := 10

/-- Python `int()` applied to a float: truncation toward zero. -/
def pyInt (q : ℚ) : ℤ :=
  if q < 0 then -(⌊-q⌋) else ⌊q⌋

/-- The session-scoped state kept in `st.session_state` (lines 25-29):
`question_count` and `last_question_time`. -/
structure SessionState where
  question_count : ℕ
  last_question_time : ℚ
deriving DecidableEq, Repr

/-- Initial session state: `question_count = 0`, `last_question_time = 0`
(lines 25-29). -/
def SessionState.init : SessionState := ⟨0, 0⟩

/-- `check_rate_limit` (lines 95-102): returns `(can_proceed, wait_time)`.
The wait time is `int(COOLDOWN_SECONDS - time_since_last)`, Python `int`
truncation. -/
def check_rate_limit (s : SessionState) (current_time : ℚ) : Bool × ℤ :=
  let time_since_last := current_time - s.last_question_time
  if time_since_last < COOLDOWN_SECONDS then
    (false, pyInt (COOLDOWN_SECONDS - time_since_last))
  else
    (true, 0)

/-- `check_usage_limit` (lines 104-108). -/
def check_usage_limit (s : SessionState) : Bool :=
  if s.question_count ≥ FREE_QUESTIONS_PER_SESSION then false else true

/-- The snapshot dict built by `get_stock_data` (lines 83-91). Prices are
numpy floats in the source, embedded as ℚ. -/
structure MarketSnapshot where
  ticker : String
  company_name : String
  current_price : ℚ
  week_change_percent : ℚ
  week_high : ℚ
  week_low : ℚ
  sector : String
deriving DecidableEq, Repr

/-- One row of the returned price history (`Close`, `High`, `Low` series). -/
structure HistRow where
  close : ℚ
  high : ℚ
  low : ℚ
deriving DecidableEq, Repr

/-- The metadata bag `stock.info`; `longName` and `sector` may be absent. -/
structure StockInfo where
  longName : Option String
  sector : Option String
deriving DecidableEq, Repr

/-- Oracle for the market-data library: `stock.history(...)` and
`stock.info` each either return a value or raise (`Except.error` carries
the exception text). The rows are in date order, oldest first. -/
structure StockOracle where
  history : Except String (List HistRow)
  info : Except String StockInfo

/-- Python `str.upper()`: uppercase every character (ASCII range; the
tickers this program handles are ASCII symbols). -/
def py_upper (s : String) : String := ⟨s.data.map Char.toUpper⟩

/-- `get_stock_data` (lines 66-93). The whole body is wrapped in
`try ... except: return None`; an empty history also returns `None`.
Note: the `Close` values are numpy floats, so a zero first close yields
an infinite percent change rather than an exception in the source; over
ℚ the division-by-zero convention yields 0 instead. -/
def get_stock_data (ticker : String) (stock : StockOracle) : Option MarketSnapshot :=
  match stock.history with
  | .error _ => none
  | .ok hist =>
    match hist with
    | [] => none
    | first :: rest =>
      match stock.info with
      | .error _ => none
      | .ok info =>
        let current_price := ((first :: rest).getLast (List.cons_ne_nil first rest)).close
        let week_ago_price := first.close
        let week_change_percent := ((current_price - week_ago_price) / week_ago_price) * 100
        some
          { ticker := py_upper ticker
            company_name := info.longName.getD ticker
            current_price := current_price
            week_change_percent := week_change_percent
            week_high := rest.foldl (fun a r => max a r.high) first.high
            week_low := rest.foldl (fun a r => min a r.low) first.low
            sector := info.sector.getD "Unknown" }

/-- Round half to even, the tie rule of Python float formatting. -/
def roundHalfEven (q : ℚ) : ℤ :=
  let f := ⌊q⌋
  if q - f < 1/2 then f
  else if 1/2 < q - f then f + 1
  else if f % 2 = 0 then f else f + 1

/-- Render a non-negative 2-decimal fixed-point value given as hundredths. -/
def fmt2core (n : ℕ) : String :=
  toString (n / 100) ++ "." ++ (if n % 100 < 10 then "0" else "") ++ toString (n % 100)

/-- Python `"{:.2f}".format q` on the ℚ embedding of a float. -/
def fmt2 (q : ℚ) : String :=
  let n := roundHalfEven (q * 100)
  if n < 0 then "-" ++ fmt2core (-n).toNat else fmt2core n.toNat

/-- Python `"{:+.2f}".format q`: like `fmt2` but with an explicit sign. -/
def fmt2signed (q : ℚ) : String :=
  let n := roundHalfEven (q * 100)
  if n < 0 then "-" ++ fmt2core (-n).toNat else "+" ++ fmt2core n.toNat

/-- The first two lines of the prompt body (lines 131-132). -/
def build_base (portfolio_context user_question : String) : String :=
  "User\x27s Portfolio Context: " ++ portfolio_context ++ "\n\n" ++
    ("User\x27s Question: " ++ user_question ++ "\n\n")

/-- The market-data block appended when `stock_data` is present
(lines 134-140). -/
def market_block (sd : MarketSnapshot) : String :=
  "Current Market Data:\n" ++
    ("- " ++ sd.company_name ++ " (" ++ sd.ticker ++ ")\n" ++
      ("- Current Price: $" ++ fmt2 sd.current_price ++ "\n" ++
        ("- Week Change: " ++ fmt2signed sd.week_change_percent ++ "%\n" ++
          ("- Week Range: $" ++ fmt2 sd.week_low ++ " - $" ++ fmt2 sd.week_high ++ "\n" ++
            ("- Sector: " ++ sd.sector ++ "\n")))))

/-- The prompt body `context` built inside `get_ai_advice` (lines 130-140):
the base lines, plus the market-data block iff `stock_data` is present. -/
def build_context (portfolio_context user_question : String)
    (stock_data : Option MarketSnapshot) : String :=
  match stock_data with
  | none => build_base portfolio_context user_question
  | some sd => build_base portfolio_context user_question ++ market_block sd

/-- One content block of the completion response (`message.content[i]`). -/
structure ContentBlock where
  text : String
deriving DecidableEq, Repr

/-- The completion response object (`message`). -/
structure ApiMessage where
  content : List ContentBlock
deriving DecidableEq, Repr

/-- `get_ai_advice` (lines 110-159). Returns the Python return value
(`None` or a string) together with the post-call session state. The
completion call `client.messages.create(...)` is the oracle `upstream`,
applied to the built `context`; `Except.error e` models a raised
exception with text `str(e)`. An `api_key` of `none` models an unset
environment variable; Python `if not api_key` also treats the empty
string as missing. `message.content[0]` on an empty content list raises
an IndexError after the tracking update, caught by the same `except`. -/
def get_ai_advice (portfolio_context user_question : String)
    (stock_data : Option MarketSnapshot) (api_key : Option String)
    (upstream : String → Except String ApiMessage)
    (current_time : ℚ) (s : SessionState) : Option String × SessionState :=
  if check_usage_limit s = false then
    (none, s)
  else
    match check_rate_limit s current_time with
    | (false, wait_time) =>
      (some ("⏳ Please wait " ++ toString wait_time ++
        " seconds before asking another question."), s)
    | (true, _) =>
      let key_present := match api_key with
        | none => false
        | some k => !k.isEmpty
      if key_present = false then
        (some "⚠️ API key not configured. Please contact support.", s)
      else
        let context := build_context portfolio_context user_question stock_data
        match upstream context with
        | .error e => (some ("⚠️ Error getting advice: " ++ e), s)
        | .ok message =>
          let s' : SessionState := ⟨s.question_count + 1, current_time⟩
          match message.content.head? with
          | some block => (some block.text, s')
          | none => (some ("⚠️ Error getting advice: " ++ "list index out of range"), s')

/-- The inputs of one advice call: user-supplied strings, optional
snapshot, environment, completion oracle, and the clock reading. -/
structure CallEvent where
  portfolio_context : String
  user_question : String
  stock_data : Option MarketSnapshot
  api_key : Option String
  upstream : String → Except String ApiMessage
  now : ℚ

/-- The state transition of one `get_ai_advice` call. -/
def advice_step (e : CallEvent) (s : SessionState) : SessionState :=
  (get_ai_advice e.portfolio_context e.user_question e.stock_data
    e.api_key e.upstream e.now s).2

/-- Run a sequence of advice calls from a starting state. -/
def run_calls (events : List CallEvent) (s : SessionState) : SessionState :=
  events.foldl (fun st e => advice_step e st) s

end CalmInvestor

namespace CalmInvestor

/-! ### Reduction lemmas for the guard checks and the advice paths -/

lemma check_usage_limit_false (s : SessionState)
    (h : FREE_QUESTIONS_PER_SESSION ≤ s.question_count) :
    check_usage_limit s = false := by
  unfold check_usage_limit
  exact if_pos h

lemma check_usage_limit_true (s : SessionState)
    (h : s.question_count < FREE_QUESTIONS_PER_SESSION) :
    check_usage_limit s = true := by
  unfold check_usage_limit
  exact if_neg (not_le.mpr h)

lemma check_rate_limit_lt (s : SessionState) (now : ℚ)
    (h : now - s.last_question_time < COOLDOWN_SECONDS) :
    check_rate_limit s now =
      (false, pyInt (COOLDOWN_SECONDS - (now - s.last_question_time))) := by
  simp only [check_rate_limit]
  rw [if_pos h]

lemma check_rate_limit_ge (s : SessionState) (now : ℚ)
    (h : COOLDOWN_SECONDS ≤ now - s.last_question_time) :
    check_rate_limit s now = (true, 0) := by
  simp only [check_rate_limit]
  rw [if_neg (not_lt.mpr h)]

lemma advice_of_quota_exceeded (p q : String) (sd : Option MarketSnapshot)
    (key : Option String) (up : String → Except String ApiMessage)
    (now : ℚ) (s : SessionState)
    (h : FREE_QUESTIONS_PER_SESSION ≤ s.question_count) :
    get_ai_advice p q sd key up now s = (none, s) := by
  unfold get_ai_advice
  rw [check_usage_limit_false s h]
  simp

lemma advice_of_cooldown (p q : String) (sd : Option MarketSnapshot)
    (key : Option String) (up : String → Except String ApiMessage)
    (now : ℚ) (s : SessionState)
    (hq : s.question_count < FREE_QUESTIONS_PER_SESSION)
    (hc : now - s.last_question_time < COOLDOWN_SECONDS) :
    get_ai_advice p q sd key up now s =
      (some ("⏳ Please wait " ++
        toString (pyInt (COOLDOWN_SECONDS - (now - s.last_question_time))) ++
        " seconds before asking another question."), s) := by
  unfold get_ai_advice
  rw [check_usage_limit_true s hq, check_rate_limit_lt s now hc]
  simp

lemma advice_of_no_key (p q : String) (sd : Option MarketSnapshot)
    (key : Option String) (up : String → Except String ApiMessage)
    (now : ℚ) (s : SessionState)
    (hq : s.question_count < FREE_QUESTIONS_PER_SESSION)
    (hc : COOLDOWN_SECONDS ≤ now - s.last_question_time)
    (hk : key = none ∨ ∃ k, key = some k ∧ k.isEmpty = true) :
    get_ai_advice p q sd key up now s =
      (some "⚠️ API key not configured. Please contact support.", s) := by
  unfold get_ai_advice
  rw [check_usage_limit_true s hq, check_rate_limit_ge s now hc]
  rcases hk with rfl | ⟨k, rfl, hk⟩
  · simp
  · simp [hk]

lemma advice_of_upstream_error (p q : String) (sd : Option MarketSnapshot)
    (key : Option String) (up : String → Except String ApiMessage)
    (now : ℚ) (s : SessionState)
    (hq : s.question_count < FREE_QUESTIONS_PER_SESSION)
    (hc : COOLDOWN_SECONDS ≤ now - s.last_question_time)
    (k : String) (hkey : key = some k) (hk : k.isEmpty = false)
    (e : String) (he : up (build_context p q sd) = Except.error e) :
    get_ai_advice p q sd key up now s =
      (some ("⚠️ Error getting advice: " ++ e), s) := by
  subst hkey
  unfold get_ai_advice
  rw [check_usage_limit_true s hq, check_rate_limit_ge s now hc]
  simp [hk, he]

lemma advice_of_upstream_ok (p q : String) (sd : Option MarketSnapshot)
    (key : Option String) (up : String → Except String ApiMessage)
    (now : ℚ) (s : SessionState)
    (hq : s.question_count < FREE_QUESTIONS_PER_SESSION)
    (hc : COOLDOWN_SECONDS ≤ now - s.last_question_time)
    (k : String) (hkey : key = some k) (hk : k.isEmpty = false)
    (m : ApiMessage) (hm : up (build_context p q sd) = Except.ok m) :
    (get_ai_advice p q sd key up now s).2 = ⟨s.question_count + 1, now⟩ ∧
    ∃ t, (get_ai_advice p q sd key up now s).1 = some t := by
  subst hkey
  unfold get_ai_advice
  rw [check_usage_limit_true s hq, check_rate_limit_ge s now hc]
  rcases m with ⟨content⟩
  rcases content with _ | ⟨b, bs⟩ <;> simp [hk, hm]

/-- Full case split on one `get_ai_advice` call: either the quota check
rejects it, or it ends without recording usage (rejection or raised
upstream call) returning a string, or it is granted and records usage. -/
lemma advice_cases (p q : String) (sd : Option MarketSnapshot)
    (key : Option String) (up : String → Except String ApiMessage)
    (now : ℚ) (s : SessionState) :
    (FREE_QUESTIONS_PER_SESSION ≤ s.question_count ∧
      get_ai_advice p q sd key up now s = (none, s)) ∨
    ((get_ai_advice p q sd key up now s).2 = s ∧
      ∃ t, (get_ai_advice p q sd key up now s).1 = some t) ∨
    (s.question_count < FREE_QUESTIONS_PER_SESSION ∧
      COOLDOWN_SECONDS ≤ now - s.last_question_time ∧
      (∃ k m, key = some k ∧ k.isEmpty = false ∧
        up (build_context p q sd) = Except.ok m) ∧
      (get_ai_advice p q sd key up now s).2 = ⟨s.question_count + 1, now⟩ ∧
      ∃ t, (get_ai_advice p q sd key up now s).1 = some t) := by
  by_cases hq : FREE_QUESTIONS_PER_SESSION ≤ s.question_count
  · exact Or.inl ⟨hq, advice_of_quota_exceeded p q sd key up now s hq⟩
  · have hq' := not_le.mp hq
    by_cases hc : now - s.last_question_time < COOLDOWN_SECONDS
    · refine Or.inr (Or.inl ?_)
      rw [advice_of_cooldown p q sd key up now s hq' hc]
      exact ⟨rfl, _, rfl⟩
    · have hc' := not_lt.mp hc
      cases key with
      | none =>
        refine Or.inr (Or.inl ?_)
        rw [advice_of_no_key p q sd none up now s hq' hc' (Or.inl rfl)]
        exact ⟨rfl, _, rfl⟩
      | some k =>
        by_cases hk : k.isEmpty
        · refine Or.inr (Or.inl ?_)
          rw [advice_of_no_key p q sd (some k) up now s hq' hc' (Or.inr ⟨k, rfl, hk⟩)]
          exact ⟨rfl, _, rfl⟩
        · have hk' : k.isEmpty = false := by
            exact Bool.not_eq_true _ ▸ eq_false_of_ne_true hk
          rcases hup : up (build_context p q sd) with e | m
          · refine Or.inr (Or.inl ?_)
            rw [advice_of_upstream_error p q sd (some k) up now s hq' hc' k rfl hk' e hup]
            exact ⟨rfl, _, rfl⟩
          · exact Or.inr (Or.inr ⟨hq', hc', ⟨k, m, rfl, hk', rfl⟩,
              advice_of_upstream_ok p q sd (some k) up now s hq' hc' k rfl hk' m hup⟩)

end CalmInvestor

namespace CalmInvestor

/-! ### Session-state invariant machinery -/

lemma advice_step_count (e : CallEvent) (s : SessionState) :
    (advice_step e s).question_count = s.question_count ∨
    (s.question_count < FREE_QUESTIONS_PER_SESSION ∧
      (advice_step e s).question_count = s.question_count + 1) := by
  unfold advice_step
  rcases advice_cases e.portfolio_context e.user_question e.stock_data
      e.api_key e.upstream e.now s with ⟨_, h⟩ | ⟨h, _⟩ | ⟨hq, _, _, h, _⟩
  · exact Or.inl (by rw [h])
  · exact Or.inl (by rw [h])
  · exact Or.inr ⟨hq, by rw [h]⟩

lemma run_calls_count_le (events : List CallEvent) (s : SessionState)
    (h : s.question_count ≤ FREE_QUESTIONS_PER_SESSION) :
    (run_calls events s).question_count ≤ FREE_QUESTIONS_PER_SESSION := by
  induction events generalizing s with
  | nil => simpa [run_calls] using h
  | cons e es ih =>
    have hstep : (advice_step e s).question_count ≤ FREE_QUESTIONS_PER_SESSION := by
      rcases advice_step_count e s with h1 | ⟨h1, h2⟩ <;> omega
    have hrw : run_calls (e :: es) s = run_calls es (advice_step e s) := by
      simp [run_calls]
    rw [hrw]
    exact ih _ hstep

/-- Claim C1: `question_count` starts at 0, changes only by an increment
of exactly 1 on a call granted after the quota check confirmed
`question_count < FREE_QUESTIONS_PER_SESSION`, and stays at most
`FREE_QUESTIONS_PER_SESSION = 3` over every sequence of advice calls. -/
theorem quota_never_exceeded :
    SessionState.init.question_count = 0 ∧
    (∀ e s, (advice_step e s).question_count = s.question_count ∨
      (s.question_count < FREE_QUESTIONS_PER_SESSION ∧
        (advice_step e s).question_count = s.question_count + 1)) ∧
    ∀ events, (run_calls events SessionState.init).question_count ≤
      FREE_QUESTIONS_PER_SESSION :=
  ⟨rfl, advice_step_count,
    fun events => run_calls_count_le events SessionState.init (by decide)⟩

/-- Claim C2: when the quota is already used up, `get_ai_advice` returns
the quota-exceeded outcome (`None`) with the state untouched, whatever
the current time, credential and completion oracle are: it never reaches
the cooldown check or the outbound call. -/
theorem quota_short_circuit (p q : String) (sd : Option MarketSnapshot)
    (key : Option String) (up : String → Except String ApiMessage)
    (now : ℚ) (s : SessionState)
    (h : FREE_QUESTIONS_PER_SESSION ≤ s.question_count) :
    get_ai_advice p q sd key up now s = (none, s) :=
  advice_of_quota_exceeded p q sd key up now s h

/-- Completion oracle that always answers with one text block. -/
def okUpstream : String → Except String ApiMessage :=
  fun _ => Except.ok ⟨[⟨"Stay calm."⟩]⟩

/-- Completion oracle that always raises. -/
def errUpstream : String → Except String ApiMessage :=
  fun _ => Except.error "boom"

/-- A call that is granted when quota and cooldown allow it. -/
def grantedCall (t : ℚ) : CallEvent :=
  ⟨"Portfolio: NVDA", "Should I sell?", none, some "sk-test", okUpstream, t⟩

/-- Three granted calls, spaced beyond the cooldown. -/
def threeGranted : List CallEvent :=
  [grantedCall 100, grantedCall 120, grantedCall 140]

lemma run_threeGranted :
    run_calls threeGranted SessionState.init = ⟨3, 140⟩ := by
  norm_num [threeGranted, run_calls, advice_step, grantedCall, get_ai_advice,
    check_usage_limit, check_rate_limit, okUpstream, COOLDOWN_SECONDS,
    FREE_QUESTIONS_PER_SESSION, SessionState.init, pyInt,
    show "sk-test".isEmpty = false from rfl]

theorem quota_short_circuit_witness :
    FREE_QUESTIONS_PER_SESSION ≤
      (run_calls threeGranted SessionState.init).question_count ∧
    get_ai_advice "p" "q" none (some "sk-test") okUpstream 141
        (run_calls threeGranted SessionState.init) =
      (none, run_calls threeGranted SessionState.init) := by
  have h : FREE_QUESTIONS_PER_SESSION ≤
      (run_calls threeGranted SessionState.init).question_count := by
    rw [run_threeGranted]; decide
  exact ⟨h, quota_short_circuit "p" "q" none (some "sk-test") okUpstream 141
    (run_calls threeGranted SessionState.init) h⟩

/-- Claim C10: at the public interface, `get_ai_advice` returns `None`
exactly when the quota check fails; every other outcome (cooldown
rejection, missing credential, raised upstream call, success) carries a
string. -/
theorem advice_none_iff_quota (p q : String) (sd : Option MarketSnapshot)
    (key : Option String) (up : String → Except String ApiMessage)
    (now : ℚ) (s : SessionState) :
    (get_ai_advice p q sd key up now s).1 = none ↔
      FREE_QUESTIONS_PER_SESSION ≤ s.question_count := by
  constructor
  · intro h
    rcases advice_cases p q sd key up now s with
      ⟨hq, _⟩ | ⟨_, t, ht⟩ | ⟨_, _, _, _, t, ht⟩
    · exact hq
    · rw [ht] at h; cases h
    · rw [ht] at h; cases h
  · intro hq
    rw [advice_of_quota_exceeded p q sd key up now s hq]

end CalmInvestor

namespace CalmInvestor

lemma pyInt_of_nonneg (q : ℚ) (h : 0 ≤ q) : pyInt q = ⌊q⌋ := by
  unfold pyInt
  rw [if_neg (not_lt.mpr h)]

/-- Counterexample to claim C3 as stated: with `last_question_time = 0`
and `now = 1/2`, the code reports a wait of `int(10 - 0.5) = 9` seconds,
while the claimed formula `max 0 ⌈C - elapsed⌉` gives 10. -/
theorem cooldown_wait_ceil_cex :
    check_rate_limit ⟨1, 0⟩ (1/2) = (false, 9) ∧
    max 0 ⌈COOLDOWN_SECONDS - ((1:ℚ)/2 - 0)⌉ = 10 ∧ (9 : ℤ) ≠ 10 := by
  refine ⟨?_, ?_, by decide⟩
  · norm_num [check_rate_limit, pyInt, COOLDOWN_SECONDS]
  · have h10 : ⌈COOLDOWN_SECONDS - ((1:ℚ)/2 - 0)⌉ = (10:ℤ) := by
      rw [Int.ceil_eq_iff]
      constructor <;> norm_num [COOLDOWN_SECONDS]
    rw [h10]
    decide

/-- Claim C3 (amended): `check_rate_limit` reports
`can_proceed = (elapsed ≥ C)` and, when rejecting, a wait of
`⌊C - elapsed⌋` — Python `int()` truncation, not the ceiling — so
immediately after a granted call (elapsed positive but below one second)
it reports `(false, C - 1)`, i.e. 9, and keeps reporting `false` until C
seconds have passed. -/
theorem cooldown_wait_truncates (s : SessionState) (now : ℚ) :
    ((check_rate_limit s now).1 = true ↔
      COOLDOWN_SECONDS ≤ now - s.last_question_time) ∧
    ((check_rate_limit s now).2 =
      if now - s.last_question_time < COOLDOWN_SECONDS then
        ⌊COOLDOWN_SECONDS - (now - s.last_question_time)⌋
      else 0) ∧
    (0 < now - s.last_question_time → now - s.last_question_time < 1 →
      check_rate_limit s now = (false, 9)) := by
  refine ⟨?_, ?_, ?_⟩
  · by_cases h : now - s.last_question_time < COOLDOWN_SECONDS
    · rw [check_rate_limit_lt s now h]
      simpa using not_le.mpr h
    · rw [check_rate_limit_ge s now (not_lt.mp h)]
      simpa using not_lt.mp h
  · by_cases h : now - s.last_question_time < COOLDOWN_SECONDS
    · rw [check_rate_limit_lt s now h, if_pos h]
      exact pyInt_of_nonneg _ (by linarith)
    · rw [check_rate_limit_ge s now (not_lt.mp h), if_neg h]
  · intro h0 h1
    have hC : (COOLDOWN_SECONDS : ℚ) = 10 := rfl
    have h : now - s.last_question_time < COOLDOWN_SECONDS := by
      rw [hC]; linarith
    rw [check_rate_limit_lt s now h]
    have h9 : pyInt (COOLDOWN_SECONDS - (now - s.last_question_time)) = 9 := by
      rw [pyInt_of_nonneg _ (by rw [hC]; linarith)]
      rw [Int.floor_eq_iff, hC]
      constructor <;> push_cast <;> linarith
    rw [h9]

theorem cooldown_wait_truncates_witness :
    check_rate_limit ⟨0, 0⟩ (1/4) = (false, 9) :=
  (cooldown_wait_truncates ⟨0, 0⟩ (1/4)).2.2 (by norm_num) (by norm_num)

/-- Counterexample to claim C4 as stated: with the quota exhausted
(`question_count = 3`) and the credential absent, the call returns the
quota outcome `None`, not the misconfiguration message — the missing
credential is NOT detected independently of quota state. -/
theorem misconfigured_precedence_cex :
    get_ai_advice "p" "q" none none okUpstream 100 ⟨3, 0⟩ = (none, ⟨3, 0⟩) ∧
    (get_ai_advice "p" "q" none none okUpstream 100 ⟨3, 0⟩).1 ≠
      some "⚠️ API key not configured. Please contact support." := by
  have h := advice_of_quota_exceeded "p" "q" none none okUpstream 100 ⟨3, 0⟩ (by decide)
  refine ⟨h, ?_⟩
  rw [h]
  simp

/-- Claim C4 (amended): when the credential is absent and the call gets
past the quota and cooldown checks, `get_ai_advice` returns the
misconfiguration message with the state untouched and independently of
the completion oracle (no outbound call); quota and cooldown rejections
take precedence over the credential check. -/
theorem misconfigured_when_reachable (p q : String) (sd : Option MarketSnapshot)
    (up : String → Except String ApiMessage) (now : ℚ) (s : SessionState)
    (hq : s.question_count < FREE_QUESTIONS_PER_SESSION)
    (hc : COOLDOWN_SECONDS ≤ now - s.last_question_time) :
    get_ai_advice p q sd none up now s =
      (some "⚠️ API key not configured. Please contact support.", s) :=
  advice_of_no_key p q sd none up now s hq hc (Or.inl rfl)

theorem misconfigured_when_reachable_witness :
    get_ai_advice "p" "q" none none okUpstream 50 SessionState.init =
      (some "⚠️ API key not configured. Please contact support.",
        SessionState.init) :=
  misconfigured_when_reachable "p" "q" none okUpstream 50 SessionState.init
    (by decide) (by norm_num [SessionState.init, COOLDOWN_SECONDS])

/-- Claim C5: rejected calls (quota, cooldown, missing credential) and
calls whose outbound request raises leave `question_count` and
`last_question_time` unchanged; a call whose outbound request returns
normally updates the pair exactly once, together, to
`(question_count + 1, now)`. -/
theorem usage_recorded_on_success_only (p q : String)
    (sd : Option MarketSnapshot) (key : Option String)
    (up : String → Except String ApiMessage) (now : ℚ) (s : SessionState) :
    (FREE_QUESTIONS_PER_SESSION ≤ s.question_count →
      (get_ai_advice p q sd key up now s).2 = s) ∧
    (now - s.last_question_time < COOLDOWN_SECONDS →
      (get_ai_advice p q sd key up now s).2 = s) ∧
    ((key = none ∨ key = some "") →
      (get_ai_advice p q sd key up now s).2 = s) ∧
    (∀ e, up (build_context p q sd) = Except.error e →
      (get_ai_advice p q sd key up now s).2 = s) ∧
    (∀ k m, key = some k → k.isEmpty = false →
      s.question_count < FREE_QUESTIONS_PER_SESSION →
      COOLDOWN_SECONDS ≤ now - s.last_question_time →
      up (build_context p q sd) = Except.ok m →
      (get_ai_advice p q sd key up now s).2 = ⟨s.question_count + 1, now⟩) := by
  refine ⟨?_, ?_, ?_, ?_, ?_⟩
  · intro h
    rw [advice_of_quota_exceeded p q sd key up now s h]
  · intro hc
    rcases advice_cases p q sd key up now s with
      ⟨_, h⟩ | ⟨h, _⟩ | ⟨_, hc', _, _, _⟩
    · rw [h]
    · exact h
    · exact absurd hc' (not_le.mpr hc)
  · intro hk
    rcases advice_cases p q sd key up now s with
      ⟨_, h⟩ | ⟨h, _⟩ | ⟨_, _, ⟨k, m, hkey, hkemp, _⟩, _, _⟩
    · rw [h]
    · exact h
    · rcases hk with rfl | rfl
      · cases hkey
      · rw [Option.some_inj] at hkey
        rw [← hkey] at hkemp
        cases hkemp
  · intro e he
    rcases advice_cases p q sd key up now s with
      ⟨_, h⟩ | ⟨h, _⟩ | ⟨_, _, ⟨k, m, _, _, hok⟩, _, _⟩
    · rw [h]
    · exact h
    · rw [he] at hok
      cases hok
  · intro k m hkey hk hq hc hm
    exact (advice_of_upstream_ok p q sd key up now s hq hc k hkey hk m hm).1

theorem usage_recorded_on_success_only_witness :
    (get_ai_advice "p" "q" none (some "sk-test") errUpstream 50
      SessionState.init).2 = SessionState.init ∧
    (get_ai_advice "p" "q" none (some "sk-test") okUpstream 50
      SessionState.init).2 = ⟨1, 50⟩ := by
  constructor
  · exact (usage_recorded_on_success_only "p" "q" none (some "sk-test")
      errUpstream 50 SessionState.init).2.2.2.1 "boom" rfl
  · exact (usage_recorded_on_success_only "p" "q" none (some "sk-test")
      okUpstream 50 SessionState.init).2.2.2.2 "sk-test" ⟨[⟨"Stay calm."⟩]⟩
      rfl rfl (by decide) (by norm_num [SessionState.init, COOLDOWN_SECONDS]) rfl

end CalmInvestor

namespace CalmInvestor

/-! ### Market snapshot fetch -/

/-- Claim C6: `get_stock_data` is total and returns `None` exactly when
the upstream query raised or the history came back empty; all failure
causes collapse to the same `None`, indistinguishable to the caller. -/
theorem get_stock_data_total_none_iff (ticker : String) (stock : StockOracle) :
    get_stock_data ticker stock = none ↔
      ((∃ e, stock.history = Except.error e) ∨ stock.history = Except.ok [] ∨
        ∃ e, stock.info = Except.error e) := by
  obtain ⟨hist, inf⟩ := stock
  cases hist with
  | error e => simp [get_stock_data]
  | ok l =>
    cases l with
    | nil => simp [get_stock_data]
    | cons a tl =>
      cases inf with
      | error e => simp [get_stock_data]
      | ok i => simp [get_stock_data]

lemma foldl_max_spec (a : ℚ) (l : List ℚ) :
    (l.foldl max a = a ∨ l.foldl max a ∈ l) ∧
    a ≤ l.foldl max a ∧ ∀ x ∈ l, x ≤ l.foldl max a := by
  induction l generalizing a with
  | nil => simp
  | cons b t ih =>
    obtain ⟨hmem, hle, hub⟩ := ih (max a b)
    simp only [List.foldl_cons]
    refine ⟨?_, le_trans (le_max_left a b) hle, ?_⟩
    · rcases hmem with h | h
      · rcases max_choice a b with hm | hm
        · exact Or.inl (by rw [h, hm])
        · exact Or.inr (by rw [h, hm]; exact List.mem_cons_self b t)
      · exact Or.inr (List.mem_cons_of_mem b h)
    · intro x hx
      rcases List.mem_cons.mp hx with rfl | hx2
      · exact le_trans (le_max_right a x) hle
      · exact hub x hx2

lemma foldl_min_spec (a : ℚ) (l : List ℚ) :
    (l.foldl min a = a ∨ l.foldl min a ∈ l) ∧
    l.foldl min a ≤ a ∧ ∀ x ∈ l, l.foldl min a ≤ x := by
  induction l generalizing a with
  | nil => simp
  | cons b t ih =>
    obtain ⟨hmem, hle, hlb⟩ := ih (min a b)
    simp only [List.foldl_cons]
    refine ⟨?_, le_trans hle (min_le_left a b), ?_⟩
    · rcases hmem with h | h
      · rcases min_choice a b with hm | hm
        · exact Or.inl (by rw [h, hm])
        · exact Or.inr (by rw [h, hm]; exact List.mem_cons_self b t)
      · exact Or.inr (List.mem_cons_of_mem b h)
    · intro x hx
      rcases List.mem_cons.mp hx with rfl | hx2
      · exact le_trans hle (min_le_right a x)
      · exact hlb x hx2

/-- Claim C7: on a successful fetch, the snapshot's week-change percent
is `(last close - first close) / first close * 100`, and its week high
and week low are the maximum of the `High` series and the minimum of the
`Low` series over the entire returned window (attained and bounding
every row, not just the endpoints). -/
theorem snapshot_week_stats (ticker : String) (stock : StockOracle)
    (first : HistRow) (rest : List HistRow) (info : StockInfo)
    (hh : stock.history = Except.ok (first :: rest))
    (hi : stock.info = Except.ok info) :
    ∃ snap, get_stock_data ticker stock = some snap ∧
      snap.week_change_percent =
        (((first :: rest).getLast (List.cons_ne_nil first rest)).close -
          first.close) / first.close * 100 ∧
      snap.week_high = rest.foldl (fun a r => max a r.high) first.high ∧
      snap.week_low = rest.foldl (fun a r => min a r.low) first.low ∧
      (snap.week_high ∈ (first :: rest).map HistRow.high ∧
        ∀ x ∈ (first :: rest).map HistRow.high, x ≤ snap.week_high) ∧
      (snap.week_low ∈ (first :: rest).map HistRow.low ∧
        ∀ x ∈ (first :: rest).map HistRow.low, snap.week_low ≤ x) := by
  obtain ⟨hist, inf⟩ := stock
  dsimp only at hh hi
  subst hh
  subst hi
  refine ⟨_, rfl, rfl, rfl, rfl, ?_, ?_⟩
  · have hmap : rest.foldl (fun a r => max a r.high) first.high =
        (rest.map HistRow.high).foldl max first.high := by
      rw [List.foldl_map]
    obtain ⟨hmem, hle, hub⟩ := foldl_max_spec first.high (rest.map HistRow.high)
    constructor
    · show rest.foldl (fun a r => max a r.high) first.high ∈
        first.high :: rest.map HistRow.high
      rw [hmap]
      rcases hmem with h | h
      · rw [h]; exact List.mem_cons_self _ _
      · exact List.mem_cons_of_mem _ h
    · intro x hx
      show x ≤ rest.foldl (fun a r => max a r.high) first.high
      rw [hmap]
      rcases List.mem_cons.mp hx with rfl | hx2
      · exact hle
      · exact hub x hx2
  · have hmap : rest.foldl (fun a r => min a r.low) first.low =
        (rest.map HistRow.low).foldl min first.low := by
      rw [List.foldl_map]
    obtain ⟨hmem, hle, hlb⟩ := foldl_min_spec first.low (rest.map HistRow.low)
    constructor
    · show rest.foldl (fun a r => min a r.low) first.low ∈
        first.low :: rest.map HistRow.low
      rw [hmap]
      rcases hmem with h | h
      · rw [h]; exact List.mem_cons_self _ _
      · exact List.mem_cons_of_mem _ h
    · intro x hx
      show rest.foldl (fun a r => min a r.low) first.low ≤ x
      rw [hmap]
      rcases List.mem_cons.mp hx with rfl | hx2
      · exact hle
      · exact hlb x hx2

/-- A window where the extreme High and Low sit strictly inside it:
closes 100 → 104 → 110, highs 5, 9, 7, lows 4, 1, 2. -/
def oracleA : StockOracle :=
  ⟨Except.ok [⟨100, 5, 4⟩, ⟨104, 9, 1⟩, ⟨110, 7, 2⟩],
    Except.ok ⟨some "Apple Inc.", some "Technology"⟩⟩

/-- A falling window: closes 50 → 45. -/
def oracleB : StockOracle :=
  ⟨Except.ok [⟨50, 50, 45⟩, ⟨45, 46, 44⟩], Except.ok ⟨none, none⟩⟩

theorem snapshot_week_stats_witness :
    (∃ snap, get_stock_data "AAPL" oracleA = some snap ∧
      snap.week_change_percent = 10 ∧ snap.week_high = 9 ∧ snap.week_low = 1) ∧
    (∃ snap, get_stock_data "XYZ" oracleB = some snap ∧
      snap.week_change_percent = -10) := by
  constructor
  · obtain ⟨snap, hs, hpct, hhigh, hlow, _, _⟩ :=
      snapshot_week_stats "AAPL" oracleA ⟨100, 5, 4⟩ [⟨104, 9, 1⟩, ⟨110, 7, 2⟩]
        ⟨some "Apple Inc.", some "Technology"⟩ rfl rfl
    have hlast : (([⟨100, 5, 4⟩, ⟨104, 9, 1⟩, ⟨110, 7, 2⟩] :
        List HistRow).getLast (List.cons_ne_nil _ _)) = ⟨110, 7, 2⟩ := rfl
    refine ⟨snap, hs, ?_, ?_, ?_⟩
    · rw [hpct, hlast]
      norm_num
    · rw [hhigh]
      simp only [List.foldl_cons, List.foldl_nil]
      norm_num [max_def]
    · rw [hlow]
      simp only [List.foldl_cons, List.foldl_nil]
      norm_num [min_def]
  · obtain ⟨snap, hs, hpct, _, _, _, _⟩ :=
      snapshot_week_stats "XYZ" oracleB ⟨50, 50, 45⟩ [⟨45, 46, 44⟩]
        ⟨none, none⟩ rfl rfl
    have hlast : (([⟨50, 50, 45⟩, ⟨45, 46, 44⟩] :
        List HistRow).getLast (List.cons_ne_nil _ _)) = ⟨45, 46, 44⟩ := rfl
    refine ⟨snap, hs, ?_⟩
    rw [hpct, hlast]
    norm_num

end CalmInvestor

namespace CalmInvestor

/-! ### Prompt builder and ticker fields -/

/-- Claim C8: the prompt builder is a pure deterministic function —
equal inputs give byte-identical text — and the market-data block is
appended exactly when a snapshot is present (and that block is never the
empty string, so its presence is observable). -/
theorem build_context_deterministic (p q p2 q2 : String)
    (sd sd2 : Option MarketSnapshot) :
    (p = p2 → q = q2 → sd = sd2 →
      build_context p q sd = build_context p2 q2 sd2) ∧
    build_context p q none = build_base p q ∧
    (∀ snap, build_context p q (some snap) =
      build_base p q ++ market_block snap) ∧
    (∀ snap, market_block snap ≠ "") := by
  refine ⟨fun h1 h2 h3 => by rw [h1, h2, h3], rfl, fun snap => rfl, ?_⟩
  intro snap hemp
  have h2 : (market_block snap).length = 0 := by rw [hemp]; rfl
  unfold market_block at h2
  simp only [String.length_append] at h2
  have h3 : ("Current Market Data:\n").length = 21 := rfl
  omega

/-- A concrete snapshot for exercising the prompt builder. -/
def sampleSnap : MarketSnapshot :=
  ⟨"NVDA", "NVIDIA Corporation", 875, -5, 900, 850, "Technology"⟩

theorem build_context_deterministic_witness :
    build_context "I own NVDA" "Should I sell?" (some sampleSnap) =
      build_context "I own NVDA" "Should I sell?" (some sampleSnap) ∧
    build_context "I own NVDA" "Should I sell?" (some sampleSnap) =
      build_base "I own NVDA" "Should I sell?" ++ market_block sampleSnap ∧
    market_block sampleSnap ≠ "" := by
  obtain ⟨hdet, _, hblock, hne⟩ :=
    build_context_deterministic "I own NVDA" "Should I sell?"
      "I own NVDA" "Should I sell?" (some sampleSnap) (some sampleSnap)
  exact ⟨hdet rfl rfl rfl, hblock sampleSnap, hne sampleSnap⟩

/-- An oracle whose metadata has no `longName` and no `sector`. -/
def noNameOracle : StockOracle :=
  ⟨Except.ok [⟨1, 1, 1⟩], Except.ok ⟨none, none⟩⟩

/-- Counterexample to claim C9 as stated: for the lowercase input
`"aapl"` with no company name in the metadata, the fallback company
name is the raw input `"aapl"`, which differs from the snapshot's
uppercased ticker field `"AAPL"`. -/
theorem company_fallback_cex :
    ∃ snap, get_stock_data "aapl" noNameOracle = some snap ∧
      snap.ticker = "AAPL" ∧ snap.company_name = "aapl" ∧
      snap.company_name ≠ snap.ticker := by
  have h : get_stock_data "aapl" noNameOracle =
      some ⟨"AAPL", "aapl", 1, 0, 1, 1, "Unknown"⟩ := by
    simp [get_stock_data, noNameOracle, show py_upper "aapl" = "AAPL" from rfl]
  exact ⟨_, h, rfl, rfl, by decide⟩

/-- Claim C9 (amended): the snapshot's ticker field is the uppercased
input, and when the metadata has no company name the company-name field
falls back to the raw input ticker string — which coincides with the
uppercased ticker field only when the input is already uppercase. -/
theorem ticker_upper_company_fallback (ticker : String) (stock : StockOracle)
    (snap : MarketSnapshot) (h : get_stock_data ticker stock = some snap) :
    snap.ticker = py_upper ticker ∧
    (∀ first rest info, stock.history = Except.ok (first :: rest) →
      stock.info = Except.ok info → info.longName = none →
      snap.company_name = ticker) := by
  obtain ⟨hist, inf⟩ := stock
  cases hist with
  | error e => simp [get_stock_data] at h
  | ok l =>
    cases l with
    | nil => simp [get_stock_data] at h
    | cons a t =>
      cases inf with
      | error e => simp [get_stock_data] at h
      | ok i =>
        simp only [get_stock_data, Option.some_inj] at h
        subst h
        constructor
        · rfl
        · intro f r i2 hh hi hname
          dsimp only at hi
          obtain rfl : i = i2 := by injection hi
          simp [hname]

theorem ticker_upper_company_fallback_witness :
    ∃ snap, get_stock_data "msft" noNameOracle = some snap ∧
      snap.ticker = "MSFT" ∧ snap.company_name = "msft" := by
  have h : get_stock_data "msft" noNameOracle =
      some ⟨"MSFT", "msft", 1, 0, 1, 1, "Unknown"⟩ := by
    simp [get_stock_data, noNameOracle, show py_upper "msft" = "MSFT" from rfl]
  obtain ⟨ht, hc⟩ := ticker_upper_company_fallback "msft" noNameOracle _ h
  exact ⟨_, h, rfl, hc ⟨1, 1, 1⟩ [] ⟨none, none⟩ rfl rfl rfl⟩

end CalmInvestor
